import Mathlib

/-!
# Trace-instrumented user API (`src/main.go`)

A shallow embedding of the request handlers `postUser` / `getUsers`, the store
access layer `insertUser` / `findUsers` and the start-up routine `initMongoDB`.

The program is sequential Go code over three collaborators that are not part of
the repository: the OpenTelemetry tracer, the MongoDB driver and the standard
library (`encoding/json`, `net/http`, `log`).  Each collaborator is modelled by
explicit state in `World`:

* every tracer call and every driver round trip is appended to `World.log`, so
  that "how often" and "in which order" are statements about a list;
* the driver's outcome is taken from `Mongo.script`, the outcomes reserved for
  the upcoming round trips (`none` = the round trip succeeds);
* a span has the status `Unset` from its start until `SetStatus` is called on
  it; the program makes no such call, so the tracer model has no such operation;
* `defer span.End()` is the call of `spanEnd` placed after the function body,
  which is where Go runs it on every `return`; `log.Fatalf` leaves through
  `os.Exit`, which runs no deferred call.
-/

namespace UserApp

/-! ## Data model -/

/-- The record `User` of main.go:30-33, with JSON keys `name` and `email`. -/
structure User where
  Name : String
  Email : String
deriving DecidableEq, Repr

/-- A Go `error` value; `nil` is `Option.none` wherever an `error` is returned. -/
structure GoError where
  msg : String
deriving DecidableEq, Repr

/-- A Go slice as far as the program observes it: the `nil` slice of
`var users []User`, or a slice backed by an array. -/
inductive Slice (α : Type) where
  | nil : Slice α
  | mk (elems : List α) : Slice α
deriving DecidableEq, Repr

/-- The elements of a slice (`nil` has none). -/
def Slice.toList {α : Type} : Slice α → List α
  | .nil => []
  | .mk xs => xs

/-- Span status codes of OpenTelemetry (`codes.Unset`, `codes.Error`, `codes.Ok`). -/
inductive StatusCode where
  | Unset
  | Error
  | Ok
deriving DecidableEq, Repr

/-- Span identifiers, handed out consecutively by the tracer. -/
abbrev SpanId := Nat

/-- A `context.Context` as far as the program uses it: the active span it
carries and whether it has been cancelled (`ctx.Err() != nil`). -/
structure Context where
  span : Option SpanId
  done : Bool
deriving DecidableEq, Repr

/-- What the tracer and the driver are asked to do, in the order of the calls. -/
inductive Event where
  | spanStart (id : SpanId) (name : String) (parent : Option SpanId)
  | spanEnd (id : SpanId) (status : StatusCode)
  | insertOne (db coll : String) (doc : User)
  | find (db coll : String)
  | cursorAll
  | connect (uri : String)
deriving DecidableEq, Repr

/-- The MongoDB deployment behind `mongoClient`: the documents of every
collection in storage order, and the outcomes of the upcoming round trips. -/
structure Mongo where
  docs : String → String → List User
  script : List (Option GoError)

/-- Everything outside the handler that a request can read or change. -/
structure World where
  nextSpan : SpanId
  status : SpanId → StatusCode
  log : List Event
  mongo : Mongo

/-! ## The tracer (`go.opentelemetry.io/otel/trace`) -/

/-- The call `tracer.Start(ctx, name)`: a new span whose parent is the active
span of `ctx` and whose status is `Unset`, and a derived context whose active
span is the new one. -/
def tracerStart (ctx : Context) (name : String) (w : World) : (Context × SpanId) × World :=
  let id := w.nextSpan
  (({ ctx with span := some id }, id),
   { w with
     nextSpan := id + 1,
     status := fun i => if i = id then .Unset else w.status i,
     log := w.log ++ [.spanStart id name ctx.span] })

/-- The call `span.End()`: the span is finished with the status it has then. -/
def spanEnd (id : SpanId) (w : World) : World :=
  { w with log := w.log ++ [.spanEnd id (w.status id)] }

/-! ## The driver (`go.mongodb.org/mongo-driver/mongo`) -/

/-- The error a driver call returns when its context is already cancelled. -/
def contextCanceled : GoError := ⟨"context canceled"⟩

/-- One round trip to the deployment: it fails at once on a cancelled context,
and otherwise with the outcome the script reserves for it. -/
def Mongo.roundTrip (ctx : Context) (m : Mongo) : Option GoError × Mongo :=
  if ctx.done then (some contextCanceled, m)
  else
    match m.script with
    | [] => (none, m)
    | o :: rest => (o, { m with script := rest })

/-- The documents of collection `db.coll` after appending `doc`. -/
def Mongo.append (m : Mongo) (db coll : String) (doc : User) : Mongo :=
  { m with docs := fun d c => if d = db ∧ c = coll then m.docs d c ++ [doc] else m.docs d c }

/-- The call `collection.InsertOne(ctx, doc)` on collection `db.coll`. -/
def insertOne (ctx : Context) (db coll : String) (doc : User) (w : World) : Option GoError × World :=
  let w : World := { w with log := w.log ++ [.insertOne db coll doc] }
  match w.mongo.roundTrip ctx with
  | (some e, m) => (some e, { w with mongo := m })
  | (none, m) => (none, { w with mongo := m.append db coll doc })

/-- A cursor over the documents a `Find` matched. -/
structure Cursor where
  batch : List User
deriving DecidableEq, Repr

/-- The call `collection.Find(ctx, bson.D{})` on collection `db.coll`: a cursor
over all its documents. -/
def find (ctx : Context) (db coll : String) (w : World) : Except GoError Cursor × World :=
  let w : World := { w with log := w.log ++ [.find db coll] }
  match w.mongo.roundTrip ctx with
  | (some e, m) => (.error e, { w with mongo := m })
  | (none, m) => (.ok ⟨m.docs db coll⟩, { w with mongo := m })

/-- The slice `cursor.All` stores into `*results`: the decoded documents
overwrite the slice from index 0 (growing it by `append` when it is full) and
the result is resliced to `[0:n]` for `n` documents; reslicing a `nil` slice to
`[0:0]` gives `nil`. -/
def Cursor.fill (c : Cursor) : Slice User → Slice User
  | .nil => if c.batch.isEmpty then .nil else .mk c.batch
  | .mk _ => .mk c.batch

/-- The call `cursor.All(ctx, &results)`; `results` is left as it was when the
call fails. -/
def cursorAll (ctx : Context) (c : Cursor) (results : Slice User) (w : World) :
    (Slice User × Option GoError) × World :=
  let w : World := { w with log := w.log ++ [.cursorAll] }
  match w.mongo.roundTrip ctx with
  | (some e, m) => ((results, some e), { w with mongo := m })
  | (none, m) => ((c.fill results, none), { w with mongo := m })

/-! ## `encoding/json`

The decoder reads the first JSON value of the body (what follows it is not
looked at), checks its syntax, and stores it into a `User`.  The model works on
the characters of a body that is valid UTF-8. -/

/-- A JSON value as the decoder sees it; numbers are kept only as a kind,
since no field of `User` takes one. -/
inductive JValue where
  | null : JValue
  | bool (b : Bool) : JValue
  | number : JValue
  | string (s : String) : JValue
  | array (elems : List JValue) : JValue
  | object (members : List (String × JValue)) : JValue

/-- The whitespace of JSON. -/
def isSpace (c : Char) : Bool :=
  c = ' ' || c = '\t' || c = '\r' || c = '\n'

/-- Drop leading whitespace. -/
def skipSpace : List Char → List Char
  | [] => []
  | c :: cs => if isSpace c then skipSpace cs else c :: cs

/-- The value of a hexadecimal digit. -/
def hexVal (c : Char) : Option Nat :=
  if '0' ≤ c ∧ c ≤ '9' then some (c.toNat - '0'.toNat)
  else if 'a' ≤ c ∧ c ≤ 'f' then some (c.toNat - 'a'.toNat + 10)
  else if 'A' ≤ c ∧ c ≤ 'F' then some (c.toNat - 'A'.toNat + 10)
  else none

/-- The four hexadecimal digits of a `\u` escape. -/
def hex4 : List Char → Option (Nat × List Char)
  | a :: b :: c :: d :: rest =>
      match hexVal a, hexVal b, hexVal c, hexVal d with
      | some x, some y, some z, some t => some (((x * 16 + y) * 16 + z) * 16 + t, rest)
      | _, _, _, _ => none
  | _ => none

/-- The character a `\u` escape with value `v` stands for, given what follows
it: a surrogate pair is combined, a lone surrogate becomes U+FFFD. -/
def unescapeU (v : Nat) (rest : List Char) : Char × List Char :=
  if 0xD800 ≤ v ∧ v < 0xDC00 then
    match rest with
    | '\\' :: 'u' :: rest2 =>
        match hex4 rest2 with
        | some (v2, rest3) =>
            if 0xDC00 ≤ v2 ∧ v2 < 0xE000 then
              (Char.ofNat (0x10000 + (v - 0xD800) * 0x400 + (v2 - 0xDC00)), rest3)
            else (Char.ofNat 0xFFFD, rest)
        | none => (Char.ofNat 0xFFFD, rest)
    | _ => (Char.ofNat 0xFFFD, rest)
  else if 0xDC00 ≤ v ∧ v < 0xE000 then (Char.ofNat 0xFFFD, rest)
  else (Char.ofNat v, rest)

/-- A string literal after its opening quote: the text it denotes and the
input after its closing quote. -/
def parseString : Nat → List Char → List Char → Option (String × List Char)
  | 0, _, _ => none
  | _ + 1, [], _ => none
  | fuel + 1, c :: cs, acc =>
      if c = '"' then some (String.mk acc.reverse, cs)
      else if c = '\\' then
        match cs with
        | '"' :: rest => parseString fuel rest ('"' :: acc)
        | '\\' :: rest => parseString fuel rest ('\\' :: acc)
        | '/' :: rest => parseString fuel rest ('/' :: acc)
        | 'b' :: rest => parseString fuel rest (Char.ofNat 8 :: acc)
        | 'f' :: rest => parseString fuel rest (Char.ofNat 12 :: acc)
        | 'n' :: rest => parseString fuel rest ('\n' :: acc)
        | 'r' :: rest => parseString fuel rest ('\r' :: acc)
        | 't' :: rest => parseString fuel rest ('\t' :: acc)
        | 'u' :: rest =>
            match hex4 rest with
            | some (v, rest2) =>
                let (ch, rest3) := unescapeU v rest2
                parseString fuel rest3 (ch :: acc)
            | none => none
        | _ => none
      else if c.toNat < 0x20 then none
      else parseString fuel cs (c :: acc)

/-- Drop leading decimal digits. -/
def skipDigits : List Char → List Char
  | [] => []
  | c :: cs => if c.isDigit then skipDigits cs else c :: cs

/-- At least one decimal digit, and the input after the digits. -/
def digits1 : List Char → Option (List Char)
  | c :: cs => if c.isDigit then some (skipDigits cs) else none
  | [] => none

/-- The exponent part of a number, if there is one. -/
def parseExp : List Char → Option (List Char)
  | c :: cs =>
      if c = 'e' ∨ c = 'E' then
        match cs with
        | s :: cs2 => if s = '+' ∨ s = '-' then digits1 cs2 else digits1 cs
        | [] => none
      else some (c :: cs)
  | [] => some []

/-- The fraction part of a number, if there is one, and then the exponent. -/
def parseFrac : List Char → Option (List Char)
  | '.' :: cs => (digits1 cs).bind parseExp
  | cs => parseExp cs

/-- The integer part of a number after its sign, and then the rest of it. -/
def parseInt : List Char → Option (List Char)
  | c :: cs =>
      if c = '0' then parseFrac cs
      else if c.isDigit then parseFrac (skipDigits cs)
      else none
  | [] => none

/-- A number literal: the input after it. -/
def parseNumber : List Char → Option (List Char)
  | '-' :: cs => parseInt cs
  | cs => parseInt cs

/-- The deepest nesting of arrays and objects the decoder accepts. -/
def maxNestingDepth : Nat := 10000

mutual
/-- One JSON value, after optional whitespace, and the input after it. -/
def parseValue : Nat → Nat → List Char → Option (JValue × List Char)
  | 0, _, _ => none
  | fuel + 1, depth, cs =>
      match skipSpace cs with
      | '{' :: rest =>
          if maxNestingDepth < depth + 1 then none
          else
            match skipSpace rest with
            | '}' :: rest2 => some (.object [], rest2)
            | _ => parseMembers fuel (depth + 1) rest []
      | '[' :: rest =>
          if maxNestingDepth < depth + 1 then none
          else
            match skipSpace rest with
            | ']' :: rest2 => some (.array [], rest2)
            | _ => parseElems fuel (depth + 1) rest []
      | '"' :: rest =>
          match parseString (rest.length + 1) rest [] with
          | some (s, rest2) => some (.string s, rest2)
          | none => none
      | 'n' :: 'u' :: 'l' :: 'l' :: rest => some (.null, rest)
      | 't' :: 'r' :: 'u' :: 'e' :: rest => some (.bool true, rest)
      | 'f' :: 'a' :: 'l' :: 's' :: 'e' :: rest => some (.bool false, rest)
      | other =>
          match parseNumber other with
          | some rest => some (.number, rest)
          | none => none
/-- The members of an object from a key on, up to the closing brace. -/
def parseMembers : Nat → Nat → List Char → List (String × JValue) → Option (JValue × List Char)
  | 0, _, _, _ => none
  | fuel + 1, depth, cs, acc =>
      match skipSpace cs with
      | '"' :: rest =>
          match parseString (rest.length + 1) rest [] with
          | some (k, rest2) =>
              match skipSpace rest2 with
              | ':' :: rest3 =>
                  match parseValue fuel depth rest3 with
                  | some (v, rest4) =>
                      match skipSpace rest4 with
                      | ',' :: rest5 => parseMembers fuel depth rest5 (acc ++ [(k, v)])
                      | '}' :: rest5 => some (.object (acc ++ [(k, v)]), rest5)
                      | _ => none
                  | none => none
              | _ => none
          | none => none
      | _ => none
/-- The elements of an array from a value on, up to the closing bracket. -/
def parseElems : Nat → Nat → List Char → List JValue → Option (JValue × List Char)
  | 0, _, _, _ => none
  | fuel + 1, depth, cs, acc =>
      match parseValue fuel depth cs with
      | some (v, rest) =>
          match skipSpace rest with
          | ',' :: rest2 => parseElems fuel depth rest2 (acc ++ [v])
          | ']' :: rest2 => some (.array (acc ++ [v]), rest2)
          | _ => none
      | none => none
end

/-- Store one object member into the struct: the key selects a field by its
JSON name, ignoring the case of letters; a string is stored, `null` leaves the
field as it is, any other value is a type error; an unknown key is skipped. -/
def setField (u : User) (key : String) (v : JValue) : Option User :=
  let k := key.toList.map Char.toLower
  if k = "name".toList then
    match v with
    | .string s => some { u with Name := s }
    | .null => some u
    | _ => none
  else if k = "email".toList then
    match v with
    | .string s => some { u with Email := s }
    | .null => some u
    | _ => none
  else some u

/-- Store the members of an object into the struct, in their order. -/
def setFields (u : User) : List (String × JValue) → Option User
  | [] => some u
  | (k, v) :: rest => (setField u k v).bind (fun u2 => setFields u2 rest)

/-- The call `json.NewDecoder(r.Body).Decode(&user)` on `var user User`:
`none` when it returns an error (postUser tests only `err != nil`), otherwise
the value of `user` afterwards. -/
def jsonDecodeUser (body : String) : Option User :=
  match parseValue (2 * body.length + 2) 0 body.toList with
  | some (.object members, _) => setFields ⟨"", ""⟩ members
  | some (.null, _) => some ⟨"", ""⟩
  | _ => none

/-- A hexadecimal digit in lower case. -/
def hexDigit (n : Nat) : Char :=
  if n < 10 then Char.ofNat ('0'.toNat + n) else Char.ofNat ('a'.toNat + (n - 10))

/-- One character of a string as the encoder writes it (HTML escaping is on
for an `Encoder` by default; control characters other than newline, carriage
return and tab are written as `\u00XX`, as Go does before version 1.22). -/
def escapeChar (c : Char) : List Char :=
  if c = '"' then ['\\', '"']
  else if c = '\\' then ['\\', '\\']
  else if c = '\n' then ['\\', 'n']
  else if c = '\r' then ['\\', 'r']
  else if c = '\t' then ['\\', 't']
  else if c.toNat < 0x20 ∨ c = '<' ∨ c = '>' ∨ c = '&' then
    ['\\', 'u', '0', '0', hexDigit (c.toNat / 16), hexDigit (c.toNat % 16)]
  else if c.toNat = 0x2028 then ['\\', 'u', '2', '0', '2', '8']
  else if c.toNat = 0x2029 then ['\\', 'u', '2', '0', '2', '9']
  else [c]

/-- A Go string as a JSON string literal. -/
def encodeString (s : String) : List Char :=
  ['"'] ++ s.toList.flatMap escapeChar ++ ['"']

/-- A `User` as a JSON object, fields in declaration order. -/
def encodeUser (u : User) : List Char :=
  "\x7b\"name\":".toList ++ encodeString u.Name ++ ",\"email\":".toList
    ++ encodeString u.Email ++ "\x7d".toList

/-- The elements of an array, separated by commas. -/
def encodeElems : List User → List Char
  | [] => []
  | [u] => encodeUser u
  | u :: rest => encodeUser u ++ ',' :: encodeElems rest

/-- The JSON text of a `[]User`: `null` for the nil slice, an array otherwise. -/
def jsonMarshalUsers : Slice User → String
  | .nil => "null"
  | .mk xs => String.mk ('[' :: encodeElems xs ++ [']'])

/-! ## `net/http` -/

/-- An `http.ResponseWriter`: the header map, the status line once it is
written, and the body written so far. -/
structure ResponseWriter where
  header : List (String × String)
  status : Option Nat
  body : String
deriving DecidableEq, Repr

/-- The writer the server hands to a handler. -/
def ResponseWriter.fresh : ResponseWriter := ⟨[], none, ""⟩

/-- The call `w.Header().Set(key, value)`; it changes the response only
before the status line is written. -/
def ResponseWriter.Set (rw : ResponseWriter) (key value : String) : ResponseWriter :=
  match rw.status with
  | none => { rw with header := rw.header.filter (fun kv => kv.1 ≠ key) ++ [(key, value)] }
  | some _ => rw

/-- The call `w.WriteHeader(code)`; only the first call counts. -/
def ResponseWriter.WriteHeader (rw : ResponseWriter) (code : Nat) : ResponseWriter :=
  match rw.status with
  | none => { rw with status := some code }
  | some _ => rw

/-- The call `w.Write(data)`; the first write sends status 200 when no status
line is written yet. -/
def ResponseWriter.Write (rw : ResponseWriter) (data : String) : ResponseWriter :=
  let rw := rw.WriteHeader 200
  { rw with body := rw.body ++ data }

/-- The call `http.Error(w, error, code)`: a plain-text reply whose body is the
message printed with `Fprintln`, one line. -/
def httpError (rw : ResponseWriter) (error : String) (code : Nat) : ResponseWriter :=
  let rw := rw.Set "Content-Type" "text/plain; charset=utf-8"
  let rw := rw.Set "X-Content-Type-Options" "nosniff"
  let rw := rw.WriteHeader code
  rw.Write (error ++ "\n")

/-- The call `json.NewEncoder(w).Encode(users)`: the JSON text and a newline. -/
def jsonEncode (rw : ResponseWriter) (users : Slice User) : ResponseWriter :=
  rw.Write (jsonMarshalUsers users ++ "\n")

/-- An `*http.Request` as far as the handlers read it. -/
structure Request where
  ctx : Context
  body : String
deriving DecidableEq, Repr

/-! ## The program (`src/main.go`) -/

/-- How a function that may call `log.Fatalf` is left. -/
inductive Outcome where
  | returned
  | exited (code : Nat)
deriving DecidableEq, Repr

/-- The call `mongo.Connect(ctx, options.Client().ApplyURI(uri))`. -/
def mongoConnect (ctx : Context) (uri : String) (w : World) : Option GoError × World :=
  let w : World := { w with log := w.log ++ [.connect uri] }
  match w.mongo.roundTrip ctx with
  | (err, m) => (err, { w with mongo := m })

/-- Function `initMongoDB` (main.go:68-78). -/
def initMongoDB (ctx : Context) (w : World) : Outcome × World :=
  let ((_, span), w) := tracerStart ctx "connecing to the MongoDB" w
  match mongoConnect ctx "mongodb://localhost:27017" w with
  | (some _, w) =>
      -- log.Fatalf: os.Exit(1), the deferred span.End() does not run
      (.exited 1, w)
  | (none, w) =>
      -- deferred: span.End()
      (.returned, spanEnd span w)

/-- Function `insertUser` (main.go:124-131). -/
def insertUser (ctx : Context) (user : User) (w : World) : Option GoError × World :=
  let ((ctx, span), w) := tracerStart ctx "MongoDB Insert User" w
  let (err, w) := insertOne ctx "testdb" "users" user w
  -- deferred: span.End()
  (err, spanEnd span w)

/-- Function `findUsers` (main.go:147-163). -/
def findUsers (ctx : Context) (w : World) : (Slice User × Option GoError) × World :=
  let ((ctx, span), w) := tracerStart ctx "MongoDB Find Users" w
  match find ctx "testdb" "users" w with
  | (.error err, w) => ((.nil, some err), spanEnd span w)
  | (.ok cursor, w) =>
      let users : Slice User := .nil
      match cursorAll ctx cursor users w with
      | ((_, some err), w) => ((.nil, some err), spanEnd span w)
      | ((users, none), w) => ((users, none), spanEnd span w)

/-- Function `postUser` (main.go:104-122). -/
def postUser (rw : ResponseWriter) (r : Request) (w : World) : ResponseWriter × World :=
  let ((ctx, span), w) := tracerStart r.ctx "HTTP POST /users" w
  match jsonDecodeUser r.body with
  | none => (httpError rw "Invalid request payload" 400, spanEnd span w)
  | some user =>
      match insertUser ctx user w with
      | (some _, w) => (httpError rw "Failed to insert user" 500, spanEnd span w)
      | (none, w) => (rw.WriteHeader 201, spanEnd span w)

/-- Function `getUsers` (main.go:133-145). -/
def getUsers (rw : ResponseWriter) (r : Request) (w : World) : ResponseWriter × World :=
  let ((ctx, span), w) := tracerStart r.ctx "HTTP GET /users" w
  match findUsers ctx w with
  | ((_, some _), w) => (httpError rw "Failed to fetch users" 500, spanEnd span w)
  | ((users, none), w) =>
      let rw := rw.Set "Content-Type" "application/json"
      (jsonEncode rw users, spanEnd span w)

/-! ## Reading the log -/

/-- The events recorded between world `w` and a later world `w2`. -/
def emitted (w w2 : World) : List Event :=
  w2.log.drop w.log.length

/-- How many times a span with identifier `id` is started in `evs`. -/
def startCount (id : SpanId) (evs : List Event) : Nat :=
  evs.countP (fun e => match e with
    | .spanStart i _ _ => i = id
    | _ => false)

/-- How many times `End` is called on span `id` in `evs`. -/
def endCount (id : SpanId) (evs : List Event) : Nat :=
  evs.countP (fun e => match e with
    | .spanEnd i _ => i = id
    | _ => false)

/-- The parent recorded for span `id` when it was started. -/
def parentOf (id : SpanId) : List Event → Option (Option SpanId)
  | [] => none
  | .spanStart i _ p :: rest => if i = id then some p else parentOf id rest
  | _ :: rest => parentOf id rest

/-- The time, counted in events, at which span `id` was started. -/
def startTime (id : SpanId) (evs : List Event) : Option Nat :=
  evs.findIdx? (fun e => match e with
    | .spanStart i _ _ => i = id
    | _ => false)

/-- The time, counted in events, at which span `id` was ended. -/
def endTime (id : SpanId) (evs : List Event) : Option Nat :=
  evs.findIdx? (fun e => match e with
    | .spanEnd i _ => i = id
    | _ => false)

/-- The status with which span `id` was ended. -/
def endStatus (id : SpanId) : List Event → Option StatusCode
  | [] => none
  | .spanEnd i s :: rest => if i = id then some s else endStatus id rest
  | _ :: rest => endStatus id rest

/-- The driver operations in `evs`. -/
def storeCalls (evs : List Event) : List Event :=
  evs.filter (fun e => match e with
    | .insertOne _ _ _ => true
    | .find _ _ => true
    | .cursorAll => true
    | _ => false)

/-- The next `n` round trips of the deployment succeed. -/
def Mongo.healthy (n : Nat) (m : Mongo) : Prop :=
  ∀ o ∈ m.script.take n, o = none

instance (n : Nat) (m : Mongo) : Decidable (m.healthy n) := by
  unfold Mongo.healthy
  infer_instance

/-- A deployment with no documents whose round trips succeed. -/
def Mongo.empty : Mongo := ⟨fun _ _ => [], []⟩

/-- A world before any request: no span, an empty log, an empty deployment. -/
def World.init : World := ⟨0, fun _ => .Unset, [], Mongo.empty⟩

/-- The ambient context of a request that carries no span and is not cancelled. -/
def Context.background : Context := ⟨none, false⟩

/-- The body of the scenario `POST /users` with Ada's record. -/
def adaBody : String := "\x7b\"name\":\"Ada\",\"email\":\"ada@example.com\"\x7d"

/-- Ada's record followed by text that is not JSON: the body as a whole is
malformed, its first JSON value is complete. -/
def adaTrailingBody : String :=
  "\x7b\"name\":\"Ada\",\"email\":\"ada@example.com\"\x7d not-json"

/-- A body that is, as a whole, one JSON text in the sense of RFC 8259:
optional whitespace, one value, optional whitespace, and nothing after it.
The program never asks this question; `Decode` looks at the first value only. -/
def isJSONText (body : String) : Bool :=
  match parseValue (2 * body.length + 2) 0 body.toList with
  | some (_, rest) => (skipSpace rest).isEmpty
  | none => false

/-- The record the scenario posts. -/
def ada : User := ⟨"Ada", "ada@example.com"⟩

/-- A request with the given body on a live context that carries no span. -/
def Request.plain (body : String) : Request := ⟨Context.background, body⟩

/-- A world in which the next round trip of the deployment fails. -/
def World.storeDown : World :=
  ⟨0, fun _ => .Unset, [], ⟨fun _ _ => [], [some ⟨"server selection error"⟩]⟩⟩

/-- A world in which the next round trip succeeds and the one after it fails. -/
def World.storeDownSecond : World :=
  ⟨0, fun _ => .Unset, [], ⟨fun _ _ => [], [none, some ⟨"connection reset"⟩]⟩⟩

/-- A context that is already cancelled. -/
def Context.cancelled : Context := ⟨none, true⟩

/-! ## Traces of the store access layer and of the handlers -/

/-- Deriving a context by `tracer.Start` does not change what a round trip does. -/
theorem roundTrip_span (ctx : Context) (sp : Option SpanId) (m : Mongo) :
    Mongo.roundTrip { ctx with span := sp } m = m.roundTrip ctx := by
  simp [Mongo.roundTrip]

/-- A round trip on a cancelled context fails and leaves the deployment alone. -/
theorem roundTrip_done (ctx : Context) (m : Mongo) (h : ctx.done = true) :
    m.roundTrip ctx = (some contextCanceled, m) := by
  simp [Mongo.roundTrip, h]

/-- A round trip never changes the documents. -/
theorem roundTrip_docs (ctx : Context) (m : Mongo) :
    (m.roundTrip ctx).2.docs = m.docs := by
  unfold Mongo.roundTrip
  split
  · rfl
  · split <;> rfl

/-- With a live context and a healthy deployment a round trip succeeds. -/
theorem roundTrip_healthy (ctx : Context) (m : Mongo) (n : Nat)
    (hctx : ctx.done = false) (h : m.healthy (n + 1)) :
    (m.roundTrip ctx).1 = none ∧ (m.roundTrip ctx).2.healthy n ∧
      (m.roundTrip ctx).2.docs = m.docs := by
  unfold Mongo.roundTrip
  simp only [hctx, Bool.false_eq_true, if_false]
  cases hs : m.script with
  | nil =>
      refine ⟨rfl, ?_, rfl⟩
      intro o ho
      simp [hs] at ho
  | cons o rest =>
      have ho : o = none := h o (by simp [hs])
      refine ⟨ho, ?_, rfl⟩
      intro o2 ho2
      apply h o2
      simp only [hs, List.take_succ_cons, List.mem_cons]
      exact Or.inr ho2

/-- The events of `insertUser`: its span is started as a child of the active
span of the context, one insert is issued, the span is ended. -/
theorem insertUser_log (ctx : Context) (user : User) (w : World) :
    (insertUser ctx user w).2.log = w.log ++
      [.spanStart w.nextSpan "MongoDB Insert User" ctx.span,
       .insertOne "testdb" "users" user,
       .spanEnd w.nextSpan .Unset] := by
  simp only [insertUser, tracerStart, insertOne, spanEnd]
  rcases h : Mongo.roundTrip _ w.mongo with ⟨_ | e, m⟩ <;> simp [h]

/-- The error of `insertUser` is the outcome of its one round trip. -/
theorem insertUser_err (ctx : Context) (user : User) (w : World) :
    (insertUser ctx user w).1 = (w.mongo.roundTrip ctx).1 := by
  simp only [insertUser, tracerStart, insertOne, spanEnd, roundTrip_span]
  rcases h : Mongo.roundTrip ctx w.mongo with ⟨_ | e, m⟩ <;> simp [h]

/-- The deployment after `insertUser`: the document is appended when the round
trip succeeds and nothing is stored when it fails. -/
theorem insertUser_mongo (ctx : Context) (user : User) (w : World) :
    (insertUser ctx user w).2.mongo =
      match (w.mongo.roundTrip ctx).1 with
      | none => (w.mongo.roundTrip ctx).2.append "testdb" "users" user
      | some _ => (w.mongo.roundTrip ctx).2 := by
  simp only [insertUser, tracerStart, insertOne, spanEnd, roundTrip_span]
  rcases h : Mongo.roundTrip ctx w.mongo with ⟨_ | e, m⟩ <;> simp [h]

/-- The events between two worlds, when the later log extends the earlier. -/
theorem emitted_of_log {w w2 : World} {evs : List Event} (h : w2.log = w.log ++ evs) :
    emitted w w2 = evs := by
  simp [emitted, h]

/-- What a round trip does to the script: nothing on a cancelled context,
otherwise its head is used up. -/
theorem roundTrip_script (ctx : Context) (m : Mongo) :
    (m.roundTrip ctx).2.script = if ctx.done then m.script else m.script.tail := by
  unfold Mongo.roundTrip
  split
  · rfl
  · split <;> simp_all

/-- The outcome of a round trip on a live context is the head of the script. -/
theorem roundTrip_live (ctx : Context) (m : Mongo) (h : ctx.done = false) :
    (m.roundTrip ctx).1 = m.script.head?.join := by
  unfold Mongo.roundTrip
  simp only [h, Bool.false_eq_true, if_false]
  split <;> simp_all

/-- Claim C8: for every context and every user, `insertUser` issues exactly one
driver operation, the single-document insert of that user into `testdb.users`,
and returns the outcome of that insert unchanged: the cancellation error on a
cancelled context, otherwise the outcome the deployment holds for the next
round trip (an error value or nil).  Only that one outcome is used up (no
retry), the document is stored when the insert succeeds, and nothing is stored
when it fails. -/
theorem insertUser_single_insert_error_unchanged (ctx : Context) (user : User) (w : World) :
    emitted w (insertUser ctx user w).2 =
        [.spanStart w.nextSpan "MongoDB Insert User" ctx.span,
         .insertOne "testdb" "users" user,
         .spanEnd w.nextSpan .Unset] ∧
      storeCalls (emitted w (insertUser ctx user w).2) = [.insertOne "testdb" "users" user] ∧
      (insertUser ctx user w).1 =
        (insertOne (tracerStart ctx "MongoDB Insert User" w).1.1 "testdb" "users" user
          (tracerStart ctx "MongoDB Insert User" w).2).1 ∧
      (insertUser ctx user w).1 =
        (if ctx.done then some contextCanceled else w.mongo.script.head?.join) ∧
      (insertUser ctx user w).2.mongo.script =
        (if ctx.done then w.mongo.script else w.mongo.script.tail) ∧
      (∀ db coll, (insertUser ctx user w).2.mongo.docs db coll =
        if (insertUser ctx user w).1 = none ∧ db = "testdb" ∧ coll = "users"
        then w.mongo.docs db coll ++ [user] else w.mongo.docs db coll) := by
  have hlog := insertUser_log ctx user w
  have herr := insertUser_err ctx user w
  have hm := insertUser_mongo ctx user w
  refine ⟨emitted_of_log hlog, ?_, ?_, ?_, ?_, ?_⟩
  · rw [emitted_of_log hlog]; rfl
  · rfl
  · rw [herr]
    cases hd : ctx.done with
    | true => simp [roundTrip_done ctx w.mongo hd]
    | false => simp [roundTrip_live ctx w.mongo hd]
  · rw [hm]
    cases h1 : (w.mongo.roundTrip ctx).1 with
    | none => simp [Mongo.append, roundTrip_script]
    | some e => simp [roundTrip_script]
  · intro db coll
    rw [hm, herr]
    cases h1 : (w.mongo.roundTrip ctx).1 with
    | none =>
        simp only [Mongo.append, roundTrip_docs, true_and]
    | some e => simp [roundTrip_docs]

/-- The result of `findUsers` when `Find` fails. -/
theorem findUsers_find_error (ctx : Context) (w : World) (e : GoError)
    (h : (w.mongo.roundTrip ctx).1 = some e) :
    (findUsers ctx w).1 = (.nil, some e) ∧
      (findUsers ctx w).2.log = w.log ++
        [.spanStart w.nextSpan "MongoDB Find Users" ctx.span,
         .find "testdb" "users",
         .spanEnd w.nextSpan .Unset] ∧
      (findUsers ctx w).2.mongo = (w.mongo.roundTrip ctx).2 := by
  simp only [findUsers, tracerStart, find, cursorAll, spanEnd, roundTrip_span]
  rcases h1 : Mongo.roundTrip ctx w.mongo with ⟨_ | e1, m1⟩
  · simp [h1] at h
  · simp [h1] at h
    simp [h]

/-- The result of `findUsers` when `Find` succeeds and `cursor.All` fails. -/
theorem findUsers_all_error (ctx : Context) (w : World) (e : GoError)
    (h1 : (w.mongo.roundTrip ctx).1 = none)
    (h2 : ((w.mongo.roundTrip ctx).2.roundTrip ctx).1 = some e) :
    (findUsers ctx w).1 = (.nil, some e) ∧
      (findUsers ctx w).2.log = w.log ++
        [.spanStart w.nextSpan "MongoDB Find Users" ctx.span,
         .find "testdb" "users",
         .cursorAll,
         .spanEnd w.nextSpan .Unset] ∧
      (findUsers ctx w).2.mongo = ((w.mongo.roundTrip ctx).2.roundTrip ctx).2 := by
  simp only [findUsers, tracerStart, find, cursorAll, spanEnd, roundTrip_span]
  rcases h3 : Mongo.roundTrip ctx w.mongo with ⟨_ | e1, m1⟩
  · simp only [h3] at h1 h2
    rcases h4 : Mongo.roundTrip ctx m1 with ⟨_ | e2, m2⟩
    · simp [h4] at h2
    · simp [h4] at h2
      simp [h4, h2]
  · simp [h3] at h1

/-- The result of `findUsers` when both driver calls succeed. -/
theorem findUsers_ok (ctx : Context) (w : World)
    (h1 : (w.mongo.roundTrip ctx).1 = none)
    (h2 : ((w.mongo.roundTrip ctx).2.roundTrip ctx).1 = none) :
    (findUsers ctx w).1 =
        (Cursor.fill ⟨w.mongo.docs "testdb" "users"⟩ .nil, none) ∧
      (findUsers ctx w).2.log = w.log ++
        [.spanStart w.nextSpan "MongoDB Find Users" ctx.span,
         .find "testdb" "users",
         .cursorAll,
         .spanEnd w.nextSpan .Unset] ∧
      (findUsers ctx w).2.mongo = ((w.mongo.roundTrip ctx).2.roundTrip ctx).2 := by
  have hd := roundTrip_docs ctx w.mongo
  simp only [findUsers, tracerStart, find, cursorAll, spanEnd, roundTrip_span]
  rcases h3 : Mongo.roundTrip ctx w.mongo with ⟨_ | e1, m1⟩
  · simp only [h3] at h1 h2 hd
    rcases h4 : Mongo.roundTrip ctx m1 with ⟨_ | e2, m2⟩
    · simp [h4, hd]
    · simp [h4] at h2
  · simp [h3] at h1

/-- The path of `postUser` on which the body does not decode. -/
theorem postUser_decode_error (rw : ResponseWriter) (r : Request) (w : World)
    (h : jsonDecodeUser r.body = none) :
    (postUser rw r w).1 = httpError rw "Invalid request payload" 400 ∧
      (postUser rw r w).2.log = w.log ++
        [.spanStart w.nextSpan "HTTP POST /users" r.ctx.span,
         .spanEnd w.nextSpan .Unset] ∧
      (postUser rw r w).2.mongo = w.mongo := by
  simp [postUser, tracerStart, spanEnd, h]

/-- The paths of `postUser` on which the body decodes to `u`. -/
theorem postUser_decoded (rw : ResponseWriter) (r : Request) (w : World) (u : User)
    (h : jsonDecodeUser r.body = some u) :
    (postUser rw r w).1 =
        (match (w.mongo.roundTrip r.ctx).1 with
         | some _ => httpError rw "Failed to insert user" 500
         | none => rw.WriteHeader 201) ∧
      (postUser rw r w).2.log = w.log ++
        [.spanStart w.nextSpan "HTTP POST /users" r.ctx.span,
         .spanStart (w.nextSpan + 1) "MongoDB Insert User" (some w.nextSpan),
         .insertOne "testdb" "users" u,
         .spanEnd (w.nextSpan + 1) .Unset,
         .spanEnd w.nextSpan .Unset] ∧
      (postUser rw r w).2.mongo =
        (match (w.mongo.roundTrip r.ctx).1 with
         | some _ => (w.mongo.roundTrip r.ctx).2
         | none => (w.mongo.roundTrip r.ctx).2.append "testdb" "users" u) := by
  simp only [postUser, h, insertUser, tracerStart, insertOne, spanEnd, roundTrip_span]
  rcases h1 : Mongo.roundTrip r.ctx w.mongo with ⟨_ | e1, m1⟩ <;> simp [h1]

/-- The path of `getUsers` on which `Find` fails. -/
theorem getUsers_find_error (rw : ResponseWriter) (r : Request) (w : World) (e : GoError)
    (h : (w.mongo.roundTrip r.ctx).1 = some e) :
    (getUsers rw r w).1 = httpError rw "Failed to fetch users" 500 ∧
      (getUsers rw r w).2.log = w.log ++
        [.spanStart w.nextSpan "HTTP GET /users" r.ctx.span,
         .spanStart (w.nextSpan + 1) "MongoDB Find Users" (some w.nextSpan),
         .find "testdb" "users",
         .spanEnd (w.nextSpan + 1) .Unset,
         .spanEnd w.nextSpan .Unset] ∧
      (getUsers rw r w).2.mongo = (w.mongo.roundTrip r.ctx).2 := by
  simp only [getUsers, findUsers, tracerStart, find, cursorAll, spanEnd, roundTrip_span]
  rcases h1 : Mongo.roundTrip r.ctx w.mongo with ⟨_ | e1, m1⟩
  · simp [h1] at h
  · simp [h1]

/-- The path of `getUsers` on which `Find` succeeds and `cursor.All` fails. -/
theorem getUsers_all_error (rw : ResponseWriter) (r : Request) (w : World) (e : GoError)
    (h1 : (w.mongo.roundTrip r.ctx).1 = none)
    (h2 : ((w.mongo.roundTrip r.ctx).2.roundTrip r.ctx).1 = some e) :
    (getUsers rw r w).1 = httpError rw "Failed to fetch users" 500 ∧
      (getUsers rw r w).2.log = w.log ++
        [.spanStart w.nextSpan "HTTP GET /users" r.ctx.span,
         .spanStart (w.nextSpan + 1) "MongoDB Find Users" (some w.nextSpan),
         .find "testdb" "users",
         .cursorAll,
         .spanEnd (w.nextSpan + 1) .Unset,
         .spanEnd w.nextSpan .Unset] ∧
      (getUsers rw r w).2.mongo = ((w.mongo.roundTrip r.ctx).2.roundTrip r.ctx).2 := by
  simp only [getUsers, findUsers, tracerStart, find, cursorAll, spanEnd, roundTrip_span]
  rcases h3 : Mongo.roundTrip r.ctx w.mongo with ⟨_ | e1, m1⟩
  · simp only [h3] at h1 h2
    rcases h4 : Mongo.roundTrip r.ctx m1 with ⟨_ | e2, m2⟩
    · simp [h4] at h2
    · simp [h4]
  · simp [h3] at h1

/-- The path of `getUsers` on which both driver calls succeed. -/
theorem getUsers_ok (rw : ResponseWriter) (r : Request) (w : World)
    (h1 : (w.mongo.roundTrip r.ctx).1 = none)
    (h2 : ((w.mongo.roundTrip r.ctx).2.roundTrip r.ctx).1 = none) :
    (getUsers rw r w).1 =
        jsonEncode (rw.Set "Content-Type" "application/json")
          (Cursor.fill ⟨w.mongo.docs "testdb" "users"⟩ .nil) ∧
      (getUsers rw r w).2.log = w.log ++
        [.spanStart w.nextSpan "HTTP GET /users" r.ctx.span,
         .spanStart (w.nextSpan + 1) "MongoDB Find Users" (some w.nextSpan),
         .find "testdb" "users",
         .cursorAll,
         .spanEnd (w.nextSpan + 1) .Unset,
         .spanEnd w.nextSpan .Unset] ∧
      (getUsers rw r w).2.mongo = ((w.mongo.roundTrip r.ctx).2.roundTrip r.ctx).2 := by
  have hd := roundTrip_docs r.ctx w.mongo
  simp only [getUsers, findUsers, tracerStart, find, cursorAll, spanEnd, roundTrip_span]
  rcases h3 : Mongo.roundTrip r.ctx w.mongo with ⟨_ | e1, m1⟩
  · simp only [h3] at h1 h2 hd
    rcases h4 : Mongo.roundTrip r.ctx m1 with ⟨_ | e2, m2⟩
    · simp [h4, hd]
    · simp [h4] at h2
  · simp [h3] at h1

/-! ## The claims -/

/-- Claim C1 (as stated, refuted): the body made of Ada's record followed by
the text `not-json` is malformed JSON as a whole, yet `Decode` reads only its
first value and returns no error: `postUser` answers 201 with an empty body,
not 400, `insertUser` is invoked, one `InsertOne` is issued and the users
collection gains the record. -/
theorem postUser_trailing_text_accepted :
    isJSONText adaTrailingBody = false ∧
      isJSONText adaBody = true ∧
      jsonDecodeUser adaTrailingBody = some ada ∧
      (postUser .fresh (Request.plain adaTrailingBody) World.init).1.status = some 201 ∧
      ¬ (postUser .fresh (Request.plain adaTrailingBody) World.init).1.status = some 400 ∧
      (postUser .fresh (Request.plain adaTrailingBody) World.init).1.body = "" ∧
      emitted World.init (postUser .fresh (Request.plain adaTrailingBody) World.init).2 =
        [.spanStart 0 "HTTP POST /users" none,
         .spanStart 1 "MongoDB Insert User" (some 0),
         .insertOne "testdb" "users" ada,
         .spanEnd 1 .Unset,
         .spanEnd 0 .Unset] ∧
      World.init.mongo.docs "testdb" "users" = [] ∧
      (postUser .fresh (Request.plain adaTrailingBody) World.init).2.mongo.docs
        "testdb" "users" = [ada] := by
  decide

/-- Claim C1 (amended): for every request body on which `Decode` returns an
error (no complete well-formed JSON value at its start, or a first value that
does not fit `User`), `postUser` answers with status 400 and the message line
`Invalid request payload` (the message `http.Error` prints, ended by a
newline), and the store is not touched: the only events of the request are the
start and the end of the handler's span, so `insertUser` is not invoked and no
driver operation is issued, and the deployment, with the users collection, is
the same after the request as before it. -/
theorem postUser_decode_error_400_no_store_mutation (r : Request) (w : World)
    (h : jsonDecodeUser r.body = none) :
    (postUser .fresh r w).1 = httpError .fresh "Invalid request payload" 400 ∧
      (postUser .fresh r w).1.status = some 400 ∧
      (postUser .fresh r w).1.body = "Invalid request payload\n" ∧
      emitted w (postUser .fresh r w).2 =
        [.spanStart w.nextSpan "HTTP POST /users" r.ctx.span,
         .spanEnd w.nextSpan .Unset] ∧
      storeCalls (emitted w (postUser .fresh r w).2) = [] ∧
      (postUser .fresh r w).2.mongo = w.mongo ∧
      (postUser .fresh r w).2.mongo.docs "testdb" "users" = w.mongo.docs "testdb" "users" := by
  obtain ⟨hresp, hlog, hm⟩ := postUser_decode_error .fresh r w h
  refine ⟨hresp, ?_, ?_, emitted_of_log hlog, ?_, hm, ?_⟩
  · rw [hresp]; decide
  · rw [hresp]; decide
  · rw [emitted_of_log hlog]; rfl
  · rw [hm]

/-- The scenario of claim C1: the body `not-json` on the initial world. -/
theorem postUser_decode_error_400_no_store_mutation_witness :
    jsonDecodeUser (Request.plain "not-json").body = none ∧
      isJSONText "not-json" = false ∧
      (postUser .fresh (Request.plain "not-json") World.init).1.status = some 400 ∧
      (postUser .fresh (Request.plain "not-json") World.init).1.body
        = "Invalid request payload\n" ∧
      storeCalls (emitted World.init (postUser .fresh (Request.plain "not-json") World.init).2)
        = [] ∧
      (postUser .fresh (Request.plain "not-json") World.init).2.mongo = World.init.mongo :=
  have h := postUser_decode_error_400_no_store_mutation (Request.plain "not-json") World.init
    (by decide)
  ⟨by decide, by decide, h.2.1, h.2.2.1, h.2.2.2.2.1, h.2.2.2.2.2.1⟩

/-- The last element of a nonempty array is written last. -/
theorem encodeElems_append_singleton (xs : List User) (u : User) :
    ∃ pre, encodeElems (xs ++ [u]) = pre ++ encodeUser u := by
  induction xs with
  | nil => exact ⟨[], rfl⟩
  | cons x rest ih =>
      obtain ⟨pre, hpre⟩ := ih
      cases hrest : rest ++ [u] with
      | nil => simp at hrest
      | cons y ys =>
          refine ⟨encodeUser x ++ ',' :: pre, ?_⟩
          simp only [List.cons_append, hrest, encodeElems] at hpre ⊢
          simp [hpre]

/-- Claim C2: for every payload that decodes to a user `u` and every initial
store state, if `postUser` succeeds (status 201, empty body), then a subsequent
`getUsers` on a live context whose two driver calls succeed responds 200 with
content type `application/json` and the JSON array of the users collection
followed by a newline; that collection is the one before the post with `u`
appended, so the array contains the entry of `u` (as its last element). -/
theorem postUser_then_getUsers_contains (r r2 : Request) (w : World) (u : User)
    (hdec : jsonDecodeUser r.body = some u)
    (hpost : (postUser .fresh r w).1.status = some 201)
    (hctx : r2.ctx.done = false)
    (hstore : (postUser .fresh r w).2.mongo.healthy 2) :
    (postUser .fresh r w).1.body = "" ∧
      (postUser .fresh r w).2.mongo.docs "testdb" "users"
        = w.mongo.docs "testdb" "users" ++ [u] ∧
      (getUsers .fresh r2 (postUser .fresh r w).2).1.status = some 200 ∧
      (getUsers .fresh r2 (postUser .fresh r w).2).1.header
        = [("Content-Type", "application/json")] ∧
      (getUsers .fresh r2 (postUser .fresh r w).2).1.body
        = jsonMarshalUsers (.mk (w.mongo.docs "testdb" "users" ++ [u])) ++ "\n" ∧
      u ∈ w.mongo.docs "testdb" "users" ++ [u] ∧
      (∃ pre, (getUsers .fresh r2 (postUser .fresh r w).2).1.body
        = String.mk ('[' :: (pre ++ encodeUser u) ++ [']']) ++ "\n") := by
  obtain ⟨hresp, -, hm⟩ := postUser_decoded .fresh r w u hdec
  -- the post succeeded, so its round trip did
  have hrt : (w.mongo.roundTrip r.ctx).1 = none := by
    cases hc : (w.mongo.roundTrip r.ctx).1 with
    | none => rfl
    | some e =>
        rw [hresp, hc] at hpost
        simp [httpError, ResponseWriter.Write, ResponseWriter.WriteHeader, ResponseWriter.Set,
          ResponseWriter.fresh] at hpost
  rw [hrt] at hresp hm
  have hdocs : (postUser .fresh r w).2.mongo.docs "testdb" "users"
      = w.mongo.docs "testdb" "users" ++ [u] := by
    rw [hm]; simp [Mongo.append, roundTrip_docs]
  -- the two round trips of the get succeed
  obtain ⟨h1, hh1, -⟩ := roundTrip_healthy r2.ctx (postUser .fresh r w).2.mongo 1 hctx hstore
  obtain ⟨h2, -, -⟩ := roundTrip_healthy r2.ctx _ 0 hctx hh1
  obtain ⟨hget, -, -⟩ := getUsers_ok .fresh r2 (postUser .fresh r w).2 h1 h2
  have hfill : Cursor.fill ⟨(postUser .fresh r w).2.mongo.docs "testdb" "users"⟩ .nil
      = .mk (w.mongo.docs "testdb" "users" ++ [u]) := by
    rw [hdocs]; simp [Cursor.fill]
  rw [hfill] at hget
  have hbody : (getUsers .fresh r2 (postUser .fresh r w).2).1.body
      = jsonMarshalUsers (.mk (w.mongo.docs "testdb" "users" ++ [u])) ++ "\n" := by
    rw [hget]
    simp [jsonEncode, ResponseWriter.Write, ResponseWriter.WriteHeader, ResponseWriter.Set,
      ResponseWriter.fresh]
  refine ⟨?_, hdocs, ?_, ?_, hbody, by simp, ?_⟩
  · rw [hresp]; rfl
  · rw [hget]; rfl
  · rw [hget]; rfl
  · obtain ⟨pre, hpre⟩ := encodeElems_append_singleton (w.mongo.docs "testdb" "users") u
    exact ⟨pre, by rw [hbody, jsonMarshalUsers, hpre]⟩

/-- The scenario of claim C2: starting from an empty collection, posting Ada's
record answers 201 with an empty body and the following get answers 200 with
the array holding exactly that record. -/
theorem postUser_then_getUsers_contains_witness :
    jsonDecodeUser (Request.plain adaBody).body = some ada ∧
      (postUser .fresh (Request.plain adaBody) World.init).1.status = some 201 ∧
      (postUser .fresh (Request.plain adaBody) World.init).1.body = "" ∧
      (getUsers .fresh (Request.plain "")
        (postUser .fresh (Request.plain adaBody) World.init).2).1.status = some 200 ∧
      (getUsers .fresh (Request.plain "")
        (postUser .fresh (Request.plain adaBody) World.init).2).1.body
        = "[\x7b\"name\":\"Ada\",\"email\":\"ada@example.com\"\x7d]\n" :=
  have h := postUser_then_getUsers_contains (Request.plain adaBody) (Request.plain "")
    World.init ada (by decide) (by decide) (by decide) (by decide)
  ⟨by decide, by decide, h.1, h.2.2.1, h.2.2.2.2.1.trans (by decide)⟩

/-- Claim C3 (the code at the failing input): on an empty users collection,
with both driver calls succeeding, `getUsers` answers 200 with the body
`null`: `findUsers` returns the nil slice it declared, since `cursor.All` adds
nothing to it, and the encoder writes a nil slice as `null`, not as `[]`. -/
theorem getUsers_empty_collection_null :
    (findUsers Context.background World.init).1 = (Slice.nil, none) ∧
      (getUsers .fresh (Request.plain "") World.init).1.status = some 200 ∧
      (getUsers .fresh (Request.plain "") World.init).1.body = "null\n" ∧
      (getUsers .fresh (Request.plain "") World.init).1.body ≠ "[]\n" ∧
      (getUsers .fresh (Request.plain "") World.init).1.body ≠ "[]" := by
  decide

/-- The reply `http.Error` writes on a fresh writer. -/
theorem httpError_fresh (msg : String) (code : Nat) :
    httpError .fresh msg code =
      ⟨[("Content-Type", "text/plain; charset=utf-8"), ("X-Content-Type-Options", "nosniff")],
       some code, "" ++ (msg ++ "\n")⟩ := by
  simp [httpError, ResponseWriter.Write, ResponseWriter.WriteHeader, ResponseWriter.Set,
    ResponseWriter.fresh]

/-- The reply of a successful `postUser` on a fresh writer. -/
theorem writeHeader_fresh (code : Nat) :
    ResponseWriter.fresh.WriteHeader code = ⟨[], some code, ""⟩ := rfl

/-- The reply of a successful `getUsers` on a fresh writer. -/
theorem jsonEncode_fresh (users : Slice User) :
    jsonEncode (ResponseWriter.fresh.Set "Content-Type" "application/json") users =
      ⟨[("Content-Type", "application/json")], some 200,
       "" ++ (jsonMarshalUsers users ++ "\n")⟩ := by
  simp [jsonEncode, ResponseWriter.Write, ResponseWriter.WriteHeader, ResponseWriter.Set,
    ResponseWriter.fresh]

/-- Claim C4: a store error is surfaced at once as a 500 plain-text reply.
`postUser` answers with the `http.Error` reply 500 `Failed to insert user`
exactly when the body decoded and `insertUser` returned an error; `getUsers`
answers with the `http.Error` reply 500 `Failed to fetch users` exactly when
`findUsers` returned an error.  Both are total functions (the handler returns),
and in either case the store operation was attempted once: one `InsertOne`,
respectively one `Find` and at most one `cursor.All`, and one store-layer span. -/
theorem store_error_500_once (r : Request) (w : World) :
    ((postUser .fresh r w).1 = httpError .fresh "Failed to insert user" 500 ↔
        ∃ u, jsonDecodeUser r.body = some u ∧
          (insertUser (tracerStart r.ctx "HTTP POST /users" w).1.1 u
            (tracerStart r.ctx "HTTP POST /users" w).2).1 ≠ none) ∧
      ((postUser .fresh r w).1.status = some 500 ↔
        (postUser .fresh r w).1 = httpError .fresh "Failed to insert user" 500) ∧
      ((postUser .fresh r w).1.status = some 500 →
        (postUser .fresh r w).1.body = "Failed to insert user\n" ∧
        (postUser .fresh r w).1.header.lookup "Content-Type"
          = some "text/plain; charset=utf-8" ∧
        (storeCalls (emitted w (postUser .fresh r w).2)).length = 1 ∧
        startCount (w.nextSpan + 1) (emitted w (postUser .fresh r w).2) = 1) ∧
      ((getUsers .fresh r w).1 = httpError .fresh "Failed to fetch users" 500 ↔
        (findUsers (tracerStart r.ctx "HTTP GET /users" w).1.1
          (tracerStart r.ctx "HTTP GET /users" w).2).1.2 ≠ none) ∧
      ((getUsers .fresh r w).1.status = some 500 ↔
        (getUsers .fresh r w).1 = httpError .fresh "Failed to fetch users" 500) ∧
      ((getUsers .fresh r w).1.status = some 500 →
        (getUsers .fresh r w).1.body = "Failed to fetch users\n" ∧
        (getUsers .fresh r w).1.header.lookup "Content-Type"
          = some "text/plain; charset=utf-8" ∧
        (emitted w (getUsers .fresh r w).2).count (.find "testdb" "users") = 1 ∧
        (emitted w (getUsers .fresh r w).2).count .cursorAll ≤ 1 ∧
        startCount (w.nextSpan + 1) (emitted w (getUsers .fresh r w).2) = 1) := by
  have hins : ∀ u, (insertUser (tracerStart r.ctx "HTTP POST /users" w).1.1 u
      (tracerStart r.ctx "HTTP POST /users" w).2).1 = (w.mongo.roundTrip r.ctx).1 := by
    intro u
    rw [insertUser_err]
    simp [tracerStart, roundTrip_span]
  have hpost : ((postUser .fresh r w).1 = httpError .fresh "Failed to insert user" 500 ↔
        ∃ u, jsonDecodeUser r.body = some u ∧
          (insertUser (tracerStart r.ctx "HTTP POST /users" w).1.1 u
            (tracerStart r.ctx "HTTP POST /users" w).2).1 ≠ none) ∧
      ((postUser .fresh r w).1.status = some 500 ↔
        (postUser .fresh r w).1 = httpError .fresh "Failed to insert user" 500) ∧
      ((postUser .fresh r w).1.status = some 500 →
        (postUser .fresh r w).1.body = "Failed to insert user\n" ∧
        (postUser .fresh r w).1.header.lookup "Content-Type"
          = some "text/plain; charset=utf-8" ∧
        (storeCalls (emitted w (postUser .fresh r w).2)).length = 1 ∧
        startCount (w.nextSpan + 1) (emitted w (postUser .fresh r w).2) = 1) := by
    simp only [hins]
    cases hdec : jsonDecodeUser r.body with
    | none =>
        obtain ⟨hresp, -, -⟩ := postUser_decode_error .fresh r w hdec
        rw [hresp]
        simp [httpError_fresh]
    | some u =>
        obtain ⟨hresp, hlog, -⟩ := postUser_decoded .fresh r w u hdec
        rw [hresp, emitted_of_log hlog]
        cases hrt : (w.mongo.roundTrip r.ctx).1 with
        | none =>
            simp [httpError_fresh, writeHeader_fresh]
        | some e =>
            simp [httpError_fresh, storeCalls, startCount, List.lookup]
  have hfind : (findUsers (tracerStart r.ctx "HTTP GET /users" w).1.1
      (tracerStart r.ctx "HTTP GET /users" w).2).1.2 ≠ none ↔
      ((w.mongo.roundTrip r.ctx).1 ≠ none ∨
        ((w.mongo.roundTrip r.ctx).2.roundTrip r.ctx).1 ≠ none) := by
    have hw : (tracerStart r.ctx "HTTP GET /users" w).2.mongo = w.mongo := rfl
    have hc : ∀ m : Mongo, m.roundTrip (tracerStart r.ctx "HTTP GET /users" w).1.1
        = m.roundTrip r.ctx := fun m => roundTrip_span r.ctx _ m
    cases h1 : (w.mongo.roundTrip r.ctx).1 with
    | some e =>
        have h := (findUsers_find_error (tracerStart r.ctx "HTTP GET /users" w).1.1
          (tracerStart r.ctx "HTTP GET /users" w).2 e (by rw [hw, hc, h1])).1
        simp [h]
    | none =>
        cases h2 : ((w.mongo.roundTrip r.ctx).2.roundTrip r.ctx).1 with
        | some e =>
            have h := (findUsers_all_error (tracerStart r.ctx "HTTP GET /users" w).1.1
              (tracerStart r.ctx "HTTP GET /users" w).2 e (by rw [hw, hc, h1])
              (by rw [hw, hc, hc, h2])).1
            simp [h]
        | none =>
            have h := (findUsers_ok (tracerStart r.ctx "HTTP GET /users" w).1.1
              (tracerStart r.ctx "HTTP GET /users" w).2 (by rw [hw, hc, h1])
              (by rw [hw, hc, hc, h2])).1
            simp [h]
  refine ⟨hpost.1, hpost.2.1, hpost.2.2, ?_⟩
  rw [hfind]
  cases h1 : (w.mongo.roundTrip r.ctx).1 with
  | some e =>
      obtain ⟨hresp, hlog, -⟩ := getUsers_find_error .fresh r w e h1
      rw [hresp, emitted_of_log hlog]
      simp [httpError_fresh, startCount, List.lookup]
  | none =>
      cases h2 : ((w.mongo.roundTrip r.ctx).2.roundTrip r.ctx).1 with
      | some e =>
          obtain ⟨hresp, hlog, -⟩ := getUsers_all_error .fresh r w e h1 h2
          rw [hresp, emitted_of_log hlog]
          simp [httpError_fresh, startCount, List.lookup]
      | none =>
          obtain ⟨hresp, hlog, -⟩ := getUsers_ok .fresh r w h1 h2
          rw [hresp, emitted_of_log hlog]
          simp [httpError_fresh, jsonEncode_fresh]

/-- The scenario of claim C4: with the store unavailable, the get answers 500
`Failed to fetch users`, the post of a valid record answers 500
`Failed to insert user`, and each issued one driver operation. -/
theorem store_error_500_once_witness :
    (getUsers .fresh (Request.plain "") World.storeDown).1.status = some 500 ∧
      (getUsers .fresh (Request.plain "") World.storeDown).1.body = "Failed to fetch users\n" ∧
      (emitted World.storeDown (getUsers .fresh (Request.plain "") World.storeDown).2).count
        (.find "testdb" "users") = 1 ∧
      (postUser .fresh (Request.plain adaBody) World.storeDown).1.status = some 500 ∧
      (postUser .fresh (Request.plain adaBody) World.storeDown).1.body
        = "Failed to insert user\n" ∧
      (storeCalls (emitted World.storeDown
        (postUser .fresh (Request.plain adaBody) World.storeDown).2)).length = 1 :=
  have h := store_error_500_once (Request.plain "") World.storeDown
  have hg := h.2.2.2.2.2 (by decide)
  have h2 := store_error_500_once (Request.plain adaBody) World.storeDown
  have hp := h2.2.2.1 (by decide)
  ⟨by decide, hg.1, hg.2.2.1, by decide, hp.1, hp.2.2.1⟩

/-- Claim C5: on every exit path of `postUser` (decode failure, store failure,
success), of `getUsers` (store failure, success) and of `insertUser`, the
function starts exactly one span of its own and ends it exactly once: the
first event of the call is the start of that span, the last event is its end
(the deferred `span.End()` runs at every return), and every span started
during the request is started once and ended once.  A request that reaches
the store layer has two such spans, that of the handler and its child, the
span of the store function. -/
theorem one_span_started_and_ended (rw : ResponseWriter) (r : Request) (w : World)
    (ctx : Context) (user : User) :
    (startCount w.nextSpan (emitted w (postUser rw r w).2) = 1 ∧
        endCount w.nextSpan (emitted w (postUser rw r w).2) = 1 ∧
        (emitted w (postUser rw r w).2).head?
          = some (.spanStart w.nextSpan "HTTP POST /users" r.ctx.span) ∧
        (emitted w (postUser rw r w).2).getLast? = some (.spanEnd w.nextSpan .Unset) ∧
        (∀ id, startCount id (emitted w (postUser rw r w).2) ≤ 1 ∧
          endCount id (emitted w (postUser rw r w).2)
            = startCount id (emitted w (postUser rw r w).2))) ∧
      (startCount w.nextSpan (emitted w (getUsers rw r w).2) = 1 ∧
        endCount w.nextSpan (emitted w (getUsers rw r w).2) = 1 ∧
        (emitted w (getUsers rw r w).2).head?
          = some (.spanStart w.nextSpan "HTTP GET /users" r.ctx.span) ∧
        (emitted w (getUsers rw r w).2).getLast? = some (.spanEnd w.nextSpan .Unset) ∧
        (∀ id, startCount id (emitted w (getUsers rw r w).2) ≤ 1 ∧
          endCount id (emitted w (getUsers rw r w).2)
            = startCount id (emitted w (getUsers rw r w).2))) ∧
      (startCount w.nextSpan (emitted w (insertUser ctx user w).2) = 1 ∧
        endCount w.nextSpan (emitted w (insertUser ctx user w).2) = 1 ∧
        (emitted w (insertUser ctx user w).2).head?
          = some (.spanStart w.nextSpan "MongoDB Insert User" ctx.span) ∧
        (emitted w (insertUser ctx user w).2).getLast? = some (.spanEnd w.nextSpan .Unset) ∧
        (∀ id, startCount id (emitted w (insertUser ctx user w).2) ≤ 1 ∧
          endCount id (emitted w (insertUser ctx user w).2)
            = startCount id (emitted w (insertUser ctx user w).2))) := by
  refine ⟨?_, ?_, ?_⟩
  · cases hdec : jsonDecodeUser r.body with
    | none =>
        obtain ⟨-, hlog, -⟩ := postUser_decode_error rw r w hdec
        rw [emitted_of_log hlog]
        refine ⟨by simp [startCount], by simp [endCount], rfl, rfl, ?_⟩
        intro id
        by_cases h : w.nextSpan = id <;> simp [startCount, endCount, h]
    | some u =>
        obtain ⟨-, hlog, -⟩ := postUser_decoded rw r w u hdec
        rw [emitted_of_log hlog]
        refine ⟨by simp [startCount], by simp [endCount], rfl, rfl, ?_⟩
        intro id
        by_cases h : w.nextSpan = id <;> by_cases h2 : w.nextSpan + 1 = id <;>
          simp [startCount, endCount, h, h2]
  · have hcount : ∀ evs : List Event, (∃ mid, evs =
          [.spanStart w.nextSpan "HTTP GET /users" r.ctx.span,
           .spanStart (w.nextSpan + 1) "MongoDB Find Users" (some w.nextSpan),
           .find "testdb" "users"] ++ mid ++
          [.spanEnd (w.nextSpan + 1) .Unset, .spanEnd w.nextSpan .Unset] ∧
          (mid = [] ∨ mid = [.cursorAll])) →
        startCount w.nextSpan evs = 1 ∧ endCount w.nextSpan evs = 1 ∧
        evs.head? = some (.spanStart w.nextSpan "HTTP GET /users" r.ctx.span) ∧
        evs.getLast? = some (.spanEnd w.nextSpan .Unset) ∧
        (∀ id, startCount id evs ≤ 1 ∧ endCount id evs = startCount id evs) := by
      rintro evs ⟨mid, rfl, hmid | hmid⟩ <;> subst hmid
      · refine ⟨by simp [startCount], by simp [endCount], rfl, rfl, ?_⟩
        intro id
        by_cases h : w.nextSpan = id <;> by_cases h2 : w.nextSpan + 1 = id <;>
          simp [startCount, endCount, h, h2]
      · refine ⟨by simp [startCount], by simp [endCount], rfl, rfl, ?_⟩
        intro id
        by_cases h : w.nextSpan = id <;> by_cases h2 : w.nextSpan + 1 = id <;>
          simp [startCount, endCount, h, h2]
    apply hcount
    cases h1 : (w.mongo.roundTrip r.ctx).1 with
    | some e =>
        obtain ⟨-, hlog, -⟩ := getUsers_find_error rw r w e h1
        exact ⟨[], by rw [emitted_of_log hlog]; rfl, Or.inl rfl⟩
    | none =>
        cases h2 : ((w.mongo.roundTrip r.ctx).2.roundTrip r.ctx).1 with
        | some e =>
            obtain ⟨-, hlog, -⟩ := getUsers_all_error rw r w e h1 h2
            exact ⟨[.cursorAll], by rw [emitted_of_log hlog]; rfl, Or.inr rfl⟩
        | none =>
            obtain ⟨-, hlog, -⟩ := getUsers_ok rw r w h1 h2
            exact ⟨[.cursorAll], by rw [emitted_of_log hlog]; rfl, Or.inr rfl⟩
  · rw [emitted_of_log (insertUser_log ctx user w)]
    refine ⟨by simp [startCount], by simp [endCount], rfl, rfl, ?_⟩
    intro id
    by_cases h : w.nextSpan = id <;> simp [startCount, endCount, h]

/-- The events of `findUsers` on every path. -/
theorem findUsers_shape (ctx : Context) (w : World) :
    ∃ mid, (mid = [] ∨ mid = [Event.cursorAll]) ∧
      emitted w (findUsers ctx w).2 =
        [.spanStart w.nextSpan "MongoDB Find Users" ctx.span, .find "testdb" "users"] ++ mid ++
        [.spanEnd w.nextSpan .Unset] := by
  cases h1 : (w.mongo.roundTrip ctx).1 with
  | some e =>
      obtain ⟨-, hlog, -⟩ := findUsers_find_error ctx w e h1
      exact ⟨[], Or.inl rfl, by rw [emitted_of_log hlog]; rfl⟩
  | none =>
      cases h2 : ((w.mongo.roundTrip ctx).2.roundTrip ctx).1 with
      | some e =>
          obtain ⟨-, hlog, -⟩ := findUsers_all_error ctx w e h1 h2
          exact ⟨[.cursorAll], Or.inr rfl, by rw [emitted_of_log hlog]; rfl⟩
      | none =>
          obtain ⟨-, hlog, -⟩ := findUsers_ok ctx w h1 h2
          exact ⟨[.cursorAll], Or.inr rfl, by rw [emitted_of_log hlog]; rfl⟩

/-- The events of `getUsers` on every path. -/
theorem getUsers_shape (rw : ResponseWriter) (r : Request) (w : World) :
    ∃ mid, (mid = [] ∨ mid = [Event.cursorAll]) ∧
      emitted w (getUsers rw r w).2 =
        [.spanStart w.nextSpan "HTTP GET /users" r.ctx.span,
         .spanStart (w.nextSpan + 1) "MongoDB Find Users" (some w.nextSpan),
         .find "testdb" "users"] ++ mid ++
        [.spanEnd (w.nextSpan + 1) .Unset, .spanEnd w.nextSpan .Unset] := by
  cases h1 : (w.mongo.roundTrip r.ctx).1 with
  | some e =>
      obtain ⟨-, hlog, -⟩ := getUsers_find_error rw r w e h1
      exact ⟨[], Or.inl rfl, by rw [emitted_of_log hlog]; rfl⟩
  | none =>
      cases h2 : ((w.mongo.roundTrip r.ctx).2.roundTrip r.ctx).1 with
      | some e =>
          obtain ⟨-, hlog, -⟩ := getUsers_all_error rw r w e h1 h2
          exact ⟨[.cursorAll], Or.inr rfl, by rw [emitted_of_log hlog]; rfl⟩
      | none =>
          obtain ⟨-, hlog, -⟩ := getUsers_ok rw r w h1 h2
          exact ⟨[.cursorAll], Or.inr rfl, by rw [emitted_of_log hlog]; rfl⟩

/-- The events of `postUser` on every path. -/
theorem postUser_shape (rw : ResponseWriter) (r : Request) (w : World) :
    (jsonDecodeUser r.body = none ∧ emitted w (postUser rw r w).2 =
        [.spanStart w.nextSpan "HTTP POST /users" r.ctx.span,
         .spanEnd w.nextSpan .Unset]) ∨
      (∃ u, jsonDecodeUser r.body = some u ∧ emitted w (postUser rw r w).2 =
        [.spanStart w.nextSpan "HTTP POST /users" r.ctx.span,
         .spanStart (w.nextSpan + 1) "MongoDB Insert User" (some w.nextSpan),
         .insertOne "testdb" "users" u,
         .spanEnd (w.nextSpan + 1) .Unset,
         .spanEnd w.nextSpan .Unset]) := by
  cases hdec : jsonDecodeUser r.body with
  | none =>
      exact Or.inl ⟨rfl, emitted_of_log (postUser_decode_error rw r w hdec).2.1⟩
  | some u =>
      exact Or.inr ⟨u, rfl, emitted_of_log (postUser_decoded rw r w u hdec).2.1⟩

/-- Claim C6 (as stated, refuted): on the decode-failure path of `postUser`
(body `not-json`) the span is ended with status `Unset`, not `Error`; with the
store unavailable `getUsers` answers 500 and ends both spans, the handler's
and that of `findUsers`, with status `Unset`, not `Error`; and a successful
post ends its span with status `Unset`, not `Ok`. -/
theorem span_status_not_marked :
    endStatus 0 (emitted World.init (postUser .fresh (Request.plain "not-json") World.init).2)
        = some .Unset ∧
      ¬ endStatus 0 (emitted World.init
          (postUser .fresh (Request.plain "not-json") World.init).2) = some .Error ∧
      (getUsers .fresh (Request.plain "") World.storeDown).1.status = some 500 ∧
      ¬ endStatus 0 (emitted World.storeDown
          (getUsers .fresh (Request.plain "") World.storeDown).2) = some .Error ∧
      ¬ endStatus 1 (emitted World.storeDown
          (getUsers .fresh (Request.plain "") World.storeDown).2) = some .Error ∧
      (postUser .fresh (Request.plain adaBody) World.init).1.status = some 201 ∧
      ¬ endStatus 0 (emitted World.init
          (postUser .fresh (Request.plain adaBody) World.init).2) = some .Ok := by
  decide

/-- Claim C6 (amended): on every path of `postUser`, `getUsers`, `insertUser`
and `findUsers`, failure and success alike, every span that is ended is ended
with the status `Unset`, the status it was started with: no path sets a span
status, so no failure path marks the span as error and the success path does
not mark it ok. -/
theorem every_span_ended_unset (rw : ResponseWriter) (r : Request) (w : World)
    (ctx : Context) (user : User) (id : SpanId) (st : StatusCode) :
    (Event.spanEnd id st ∈ emitted w (postUser rw r w).2 → st = .Unset) ∧
      (Event.spanEnd id st ∈ emitted w (getUsers rw r w).2 → st = .Unset) ∧
      (Event.spanEnd id st ∈ emitted w (insertUser ctx user w).2 → st = .Unset) ∧
      (Event.spanEnd id st ∈ emitted w (findUsers ctx w).2 → st = .Unset) ∧
      endStatus w.nextSpan (emitted w (postUser rw r w).2) = some .Unset ∧
      endStatus w.nextSpan (emitted w (getUsers rw r w).2) = some .Unset ∧
      endStatus w.nextSpan (emitted w (insertUser ctx user w).2) = some .Unset ∧
      endStatus w.nextSpan (emitted w (findUsers ctx w).2) = some .Unset := by
  obtain ⟨mg, hmg, hg⟩ := getUsers_shape rw r w
  obtain ⟨mf, hmf, hf⟩ := findUsers_shape ctx w
  have hi := emitted_of_log (insertUser_log ctx user w)
  rw [hg, hf, hi]
  have hp : (Event.spanEnd id st ∈ emitted w (postUser rw r w).2 → st = .Unset) ∧
      endStatus w.nextSpan (emitted w (postUser rw r w).2) = some .Unset := by
    rcases postUser_shape rw r w with ⟨-, h⟩ | ⟨u, -, h⟩ <;> rw [h]
    · refine ⟨fun h => ?_, by simp [endStatus]⟩
      simp at h
      exact h.2
    · refine ⟨fun h => ?_, by simp [endStatus]⟩
      simp at h
      rcases h with h | h <;> exact h.2
  refine ⟨hp.1, ?_, ?_, ?_, hp.2, ?_, ?_, ?_⟩
  · rcases hmg with h | h <;> subst h <;> intro h <;> simp at h <;>
      rcases h with h | h <;> exact h.2
  · intro h
    simp at h
    exact h.2
  · rcases hmf with h | h <;> subst h <;> intro h <;> simp at h <;> exact h.2
  · rcases hmg with h | h <;> subst h <;> simp [endStatus]
  · simp [endStatus]
  · rcases hmf with h | h <;> subst h <;> simp [endStatus]

/-- Claim C7: in every request that reaches the store layer (a post whose body
decodes, every get) the span started by `insertUser` / `findUsers` has the
handler's span as its parent, whatever span the request's own context carries:
the handler calls the store layer with the context returned by `tracer.Start`,
whose active span is the handler's span.  The events are ordered root-start,
child-start, child-end, root-end, so the root span ends after its child. -/
theorem store_span_nested_in_root (rw : ResponseWriter) (r : Request) (w : World) :
    (tracerStart r.ctx "HTTP POST /users" w).1.1.span = some w.nextSpan ∧
      (tracerStart r.ctx "HTTP GET /users" w).1.1.span = some w.nextSpan ∧
      (∀ u, jsonDecodeUser r.body = some u →
        Event.spanStart (w.nextSpan + 1) "MongoDB Insert User" (some w.nextSpan)
          ∈ emitted w (postUser rw r w).2 ∧
        parentOf (w.nextSpan + 1) (emitted w (postUser rw r w).2) = some (some w.nextSpan) ∧
        parentOf w.nextSpan (emitted w (postUser rw r w).2) = some r.ctx.span ∧
        ∃ ts tc ec er,
          startTime w.nextSpan (emitted w (postUser rw r w).2) = some ts ∧
          startTime (w.nextSpan + 1) (emitted w (postUser rw r w).2) = some tc ∧
          endTime (w.nextSpan + 1) (emitted w (postUser rw r w).2) = some ec ∧
          endTime w.nextSpan (emitted w (postUser rw r w).2) = some er ∧
          ts < tc ∧ tc < ec ∧ ec < er) ∧
      (Event.spanStart (w.nextSpan + 1) "MongoDB Find Users" (some w.nextSpan)
          ∈ emitted w (getUsers rw r w).2 ∧
        parentOf (w.nextSpan + 1) (emitted w (getUsers rw r w).2) = some (some w.nextSpan) ∧
        parentOf w.nextSpan (emitted w (getUsers rw r w).2) = some r.ctx.span ∧
        ∃ ts tc ec er,
          startTime w.nextSpan (emitted w (getUsers rw r w).2) = some ts ∧
          startTime (w.nextSpan + 1) (emitted w (getUsers rw r w).2) = some tc ∧
          endTime (w.nextSpan + 1) (emitted w (getUsers rw r w).2) = some ec ∧
          endTime w.nextSpan (emitted w (getUsers rw r w).2) = some er ∧
          ts < tc ∧ tc < ec ∧ ec < er) := by
  refine ⟨rfl, rfl, ?_, ?_⟩
  · intro u hdec
    rw [emitted_of_log (postUser_decoded rw r w u hdec).2.1]
    refine ⟨by simp, by simp [parentOf], by simp [parentOf], 0, 1, 3, 4, ?_⟩
    simp [startTime, endTime, List.findIdx?_cons]
  · obtain ⟨mid, hmid, hg⟩ := getUsers_shape rw r w
    rw [hg]
    rcases hmid with h | h <;> subst h
    · refine ⟨by simp, by simp [parentOf], by simp [parentOf], 0, 1, 3, 4, ?_⟩
      simp [startTime, endTime, List.findIdx?_cons]
    · refine ⟨by simp, by simp [parentOf], by simp [parentOf], 0, 1, 4, 5, ?_⟩
      simp [startTime, endTime, List.findIdx?_cons]

/-- The scenario of claim C7: Ada's post on the initial world, on a context
that already carries span 7 of an upstream caller; the span of `insertUser`
(span 1) has the handler's span (span 0) as parent, not span 7, and the four
span events come in the order root-start, child-start, child-end, root-end. -/
theorem store_span_nested_in_root_witness :
    jsonDecodeUser adaBody = some ada ∧
      parentOf 1 (emitted World.init (postUser .fresh ⟨⟨some 7, false⟩, adaBody⟩ World.init).2)
        = some (some 0) ∧
      parentOf 0 (emitted World.init (postUser .fresh ⟨⟨some 7, false⟩, adaBody⟩ World.init).2)
        = some (some 7) ∧
      emitted World.init (postUser .fresh ⟨⟨some 7, false⟩, adaBody⟩ World.init).2 =
        [.spanStart 0 "HTTP POST /users" (some 7),
         .spanStart 1 "MongoDB Insert User" (some 0),
         .insertOne "testdb" "users" ada,
         .spanEnd 1 .Unset,
         .spanEnd 0 .Unset] :=
  have h := (store_span_nested_in_root .fresh ⟨⟨some 7, false⟩, adaBody⟩ World.init).2.2.1
    ada (by decide)
  ⟨by decide, h.2.1, h.2.2.1, by decide⟩

/-- Claim C9: on a context that is cancelled before the store call starts,
`insertUser` returns the cancellation error and `findUsers` returns it with no
users (the nil slice); in both the span that was started is ended exactly once
before the function returns, and nothing is stored.  On every context, each
error exit of `findUsers` (`Find` failing, `cursor.All` failing) returns the
driver's error with the nil slice after ending the span exactly once, as the
last event of the call. -/
theorem cancelled_store_call_ends_span (ctx : Context) (user : User) (w : World)
    (hc : ctx.done = true) :
    ((insertUser ctx user w).1 = some contextCanceled ∧
        emitted w (insertUser ctx user w).2 =
          [.spanStart w.nextSpan "MongoDB Insert User" ctx.span,
           .insertOne "testdb" "users" user,
           .spanEnd w.nextSpan .Unset] ∧
        startCount w.nextSpan (emitted w (insertUser ctx user w).2) = 1 ∧
        endCount w.nextSpan (emitted w (insertUser ctx user w).2) = 1 ∧
        (insertUser ctx user w).2.mongo = w.mongo) ∧
      ((findUsers ctx w).1 = (.nil, some contextCanceled) ∧
        emitted w (findUsers ctx w).2 =
          [.spanStart w.nextSpan "MongoDB Find Users" ctx.span,
           .find "testdb" "users",
           .spanEnd w.nextSpan .Unset] ∧
        startCount w.nextSpan (emitted w (findUsers ctx w).2) = 1 ∧
        endCount w.nextSpan (emitted w (findUsers ctx w).2) = 1 ∧
        (findUsers ctx w).2.mongo = w.mongo) ∧
      (∀ (ctx2 : Context) (w2 : World) (e : GoError),
        (w2.mongo.roundTrip ctx2).1 = some e →
        (findUsers ctx2 w2).1 = (.nil, some e) ∧
        Event.cursorAll ∉ emitted w2 (findUsers ctx2 w2).2 ∧
        startCount w2.nextSpan (emitted w2 (findUsers ctx2 w2).2) = 1 ∧
        endCount w2.nextSpan (emitted w2 (findUsers ctx2 w2).2) = 1 ∧
        (emitted w2 (findUsers ctx2 w2).2).getLast? = some (.spanEnd w2.nextSpan .Unset)) ∧
      (∀ (ctx2 : Context) (w2 : World) (e : GoError),
        (w2.mongo.roundTrip ctx2).1 = none →
        ((w2.mongo.roundTrip ctx2).2.roundTrip ctx2).1 = some e →
        (findUsers ctx2 w2).1 = (.nil, some e) ∧
        Event.cursorAll ∈ emitted w2 (findUsers ctx2 w2).2 ∧
        startCount w2.nextSpan (emitted w2 (findUsers ctx2 w2).2) = 1 ∧
        endCount w2.nextSpan (emitted w2 (findUsers ctx2 w2).2) = 1 ∧
        (emitted w2 (findUsers ctx2 w2).2).getLast? = some (.spanEnd w2.nextSpan .Unset)) := by
  have hrt := roundTrip_done ctx w.mongo hc
  refine ⟨?_, ?_, ?_, ?_⟩
  · have hlog := emitted_of_log (insertUser_log ctx user w)
    refine ⟨?_, hlog, ?_, ?_, ?_⟩
    · rw [insertUser_err, hrt]
    · rw [hlog]; simp [startCount]
    · rw [hlog]; simp [endCount]
    · rw [insertUser_mongo, hrt]
  · obtain ⟨hres, hlog, hm⟩ := findUsers_find_error ctx w contextCanceled (by rw [hrt])
    have hlog2 := emitted_of_log hlog
    refine ⟨hres, hlog2, ?_, ?_, ?_⟩
    · rw [hlog2]; simp [startCount]
    · rw [hlog2]; simp [endCount]
    · rw [hm, hrt]
  · intro ctx2 w2 e h1
    obtain ⟨hres, hlog, -⟩ := findUsers_find_error ctx2 w2 e h1
    rw [emitted_of_log hlog]
    exact ⟨hres, by simp, by simp [startCount], by simp [endCount], rfl⟩
  · intro ctx2 w2 e h1 h2
    obtain ⟨hres, hlog, -⟩ := findUsers_all_error ctx2 w2 e h1 h2
    rw [emitted_of_log hlog]
    exact ⟨hres, by simp, by simp [startCount], by simp [endCount], rfl⟩

/-- The scenario of claim C9: a cancelled context on the initial world, and
the exit of `findUsers` through a failing `cursor.All`. -/
theorem cancelled_store_call_ends_span_witness :
    Context.cancelled.done = true ∧
      (insertUser Context.cancelled ada World.init).1 = some contextCanceled ∧
      endCount 0 (emitted World.init (insertUser Context.cancelled ada World.init).2) = 1 ∧
      (findUsers Context.cancelled World.init).1 = (.nil, some contextCanceled) ∧
      endCount 0 (emitted World.init (findUsers Context.cancelled World.init).2) = 1 ∧
      (findUsers Context.background World.storeDownSecond).1
        = (.nil, some ⟨"connection reset"⟩) ∧
      endCount 0 (emitted World.storeDownSecond
        (findUsers Context.background World.storeDownSecond).2) = 1 :=
  have h := cancelled_store_call_ends_span Context.cancelled ada World.init rfl
  have h2 := h.2.2.2 Context.background World.storeDownSecond ⟨"connection reset"⟩
    (by decide) (by decide)
  ⟨rfl, h.1.1, h.1.2.2.2.1, h.2.1.1, h.2.1.2.2.2.1, h2.1, h2.2.2.2.1⟩

/-- Claim C10 (the code at the failing input): when `mongo.Connect` returns an
error, `initMongoDB` leaves through `log.Fatalf`, that is `os.Exit(1)`, and the
deferred `span.End()` does not run: the span `connecing to the MongoDB` is
started once and never ended.  When `mongo.Connect` succeeds the same span is
ended once. -/
theorem initMongoDB_connect_error_span_not_ended :
    (initMongoDB Context.background World.storeDown).1 = .exited 1 ∧
      emitted World.storeDown (initMongoDB Context.background World.storeDown).2 =
        [.spanStart 0 "connecing to the MongoDB" none,
         .connect "mongodb://localhost:27017"] ∧
      startCount 0 (emitted World.storeDown
        (initMongoDB Context.background World.storeDown).2) = 1 ∧
      endCount 0 (emitted World.storeDown
        (initMongoDB Context.background World.storeDown).2) = 0 ∧
      (initMongoDB Context.background World.init).1 = .returned ∧
      endCount 0 (emitted World.init (initMongoDB Context.background World.init).2) = 1 := by
  decide

end UserApp
